import Mathlib

/-!
# seo-auditor — crawl orchestration engine: shallow embedding

This file embeds the crawl orchestration core of the seo-auditor repository
(`src/crawler.js` and `src/db/index.js`) as executable Lean definitions and
proves the specification claims about it.

Modelling conventions:
* SQLite tables become lists of row structures; SQL statements become the
  corresponding filter/map/append/sort operations on those lists.
* JavaScript `null` becomes `Option.none`; Javascript truthiness coercions
  (`x || null`, `x ? a : b`) are modelled by explicit helpers (`jsOrNullStr`,
  `jsTruthyStr`, `jsOrNullNat`).
* `better-sqlite3`'s `db.transaction(fn)()` (an external collaborator, per the
  spec's Persistence Store contract) rolls the database back when `fn` throws;
  it is modelled by a `transaction` combinator over `Except`.
* External collaborators (robots policy, the WHATWG `new URL` resolver, the
  `analyze` HTML extractor) are parameters of the processing context, exactly
  as the spec's §6 interface contracts describe them.
* The single-threaded event loop of the worker pool becomes a small-step
  transition relation `PoolStep`; each constructor is one event-loop turn of
  `runWorkerPool` (one iteration of the `startNext` dispatch loop, one promise
  settlement with its `.then`/`.finally` handlers, the SIGINT flag flip, or the
  guarded `resolve()` call).
-/

namespace SeoAuditor

/-- JS `x || null` applied to an optional string: the empty string is falsy and
collapses to `null`. -/
def jsOrNullStr : Option String → Option String
  | some "" => none
  | x => x

/-- JS `x || null` applied to an optional number: `0` is falsy and collapses to
`null`. -/
def jsOrNullNat : Option Nat → Option Nat
  | some 0 => none
  | x => x

/-- JS truthiness of a nullable string (`null` and `""` are falsy). -/
def jsTruthyStr : Option String → Bool
  | some s => s ≠ ""
  | none => false

/-- Whether the first character list is a prefix of the second. -/
def charPrefix : List Char → List Char → Bool
  | [], _ => true
  | _ :: _, [] => false
  | p :: ps, c :: cs => p == c && charPrefix ps cs

/-- Whether the pattern occurs as a contiguous run in the character list. -/
def charContains (pat : List Char) : List Char → Bool
  | [] => pat.isEmpty
  | c :: cs => charPrefix pat (c :: cs) || charContains pat cs

/-- JS `s.includes(pat)`: substring containment. -/
def containsSub (s pat : String) : Bool :=
  charContains pat.data s.data

/-- The per-page data columns written by `markPageCrawled` — precisely the key
set of `emptyPage` in `src/crawler.js` (plus `status_code`, which every caller
supplies through the overrides object). -/
structure PageData where
  status_code : Option Nat := none
  redirect_url : Option String := none
  content_type : Option String := none
  title : Option String := none
  title_length : Option Nat := none
  meta_description : Option String := none
  meta_desc_length : Option Nat := none
  h1 : Option String := none
  h1_count : Option Nat := none
  h2_count : Option Nat := none
  canonical_url : Option String := none
  robots_directive : Option String := none
  x_robots_tag : Option String := none
  is_indexable : Option Nat := none
  word_count : Option Nat := none
  internal_link_count : Option Nat := none
  external_link_count : Option Nat := none
  image_count : Option Nat := none
  images_missing_alt : Option Nat := none
  images_empty_alt : Option Nat := none
  has_schema : Option Nat := none
  response_time_ms : Option Nat := none
  page_size_bytes : Option Nat := none
  deriving Repr, DecidableEq

/-- `emptyPage()` from `src/crawler.js`: the baseline page-data object (JS
`null` ↦ `none`, literal `0` ↦ `some 0`). Overrides are applied at each call
site with a record update, mirroring the JS spread. -/
def emptyPage : PageData :=
  { h1_count := some 0, h2_count := some 0, word_count := some 0,
    internal_link_count := some 0, external_link_count := some 0,
    image_count := some 0, images_missing_alt := some 0,
    images_empty_alt := some 0, has_schema := some 0 }

/-- A row of the `pages` table. Rows are created by `upsertPage` with the data
columns at their SQL `NULL` defaults. -/
structure PageRow where
  session_id : Nat
  url : String
  status : String := "pending"
  depth : Nat := 0
  in_sitemap : Nat := 0
  data : PageData := {}
  crawled_at : Option String := none
  error_message : Option String := none
  deriving Repr, DecidableEq

/-- A row of the `links` table. -/
structure LinkRow where
  session_id : Nat
  source_url : String
  target_url : String
  anchor_text : Option String
  is_external : Nat
  deriving Repr, DecidableEq

/-- A row of the `images` table. -/
structure ImageRow where
  session_id : Nat
  page_url : String
  src : String
  alt : Option String
  deriving Repr, DecidableEq

/-- A row of the `sessions` table. -/
structure SessionRow where
  id : Nat
  site_url : String
  label : Option String := none
  status : String := "running"
  completed_at : Option String := none
  total_pages : Option Nat := none
  deriving Repr, DecidableEq

/-- The SQLite database for one site (`audits/{hostname}/crawl.db`). -/
structure Store where
  sessions : List SessionRow := []
  pages : List PageRow := []
  links : List LinkRow := []
  images : List ImageRow := []
  deriving Repr, DecidableEq

/-- Whether a `pages` row with the given `(session_id, url)` key exists
(the `ON CONFLICT(session_id, url)` probe). -/
def Store.pageExists (st : Store) (sid : Nat) (url : String) : Bool :=
  st.pages.any (fun r => r.session_id == sid && r.url == url)

/-- The argument object of `Db.upsertPage`, with the source's defaults. -/
structure UpsertArgs where
  url : String
  status : String := "pending"
  depth : Nat := 0
  in_sitemap : Nat := 0
  deriving Repr, DecidableEq

/-- `Db.upsertPage`: `INSERT ... ON CONFLICT(session_id, url) DO NOTHING` —
first insertion wins, duplicates leave the store untouched. -/
def upsertPage (st : Store) (sid : Nat) (p : UpsertArgs) : Store :=
  if st.pageExists sid p.url then st
  else
    { st with
      pages := st.pages ++
        [{ session_id := sid, url := p.url, status := p.status,
           depth := p.depth, in_sitemap := p.in_sitemap }] }

/-- `Db.markPageCrawled`: sets `status='crawled'`, `crawled_at=datetime('now')`
and writes every key of the data object (the SET clause is built from the keys
of `data`, which is always the full `emptyPage` key set). -/
def markPageCrawled (st : Store) (sid : Nat) (url : String) (data : PageData)
    (now : String) : Store :=
  { st with
    pages := st.pages.map (fun r =>
      if r.session_id == sid && r.url == url then
        { r with status := "crawled", crawled_at := some now, data := data }
      else r) }

/-- `Db.markPageError`: sets `status='error'`, `status_code` (JS `|| null`),
`error_message` (JS `|| null`) and `crawled_at=datetime('now')`. -/
def markPageError (st : Store) (sid : Nat) (url : String)
    (statusCode : Option Nat) (errorMessage : Option String) (now : String) : Store :=
  { st with
    pages := st.pages.map (fun r =>
      if r.session_id == sid && r.url == url then
        { r with status := "error",
                 data := { r.data with status_code := jsOrNullNat statusCode },
                 error_message := jsOrNullStr errorMessage,
                 crawled_at := some now }
      else r) }

/-- `Db.markPageSkipped`: sets only `status='skipped'` and `error_message`
(JS `|| null`); in particular it does not touch `crawled_at`. -/
def markPageSkipped (st : Store) (sid : Nat) (url : String)
    (reason : Option String) : Store :=
  { st with
    pages := st.pages.map (fun r =>
      if r.session_id == sid && r.url == url then
        { r with status := "skipped", error_message := jsOrNullStr reason }
      else r) }

/-- A link record produced by `analyze` (input of `insertLinks`). -/
structure LinkData where
  source_url : String
  target_url : String
  anchor_text : Option String := none
  is_external : Bool := false
  deriving Repr, DecidableEq

/-- An image record produced by `analyze` (input of `insertImages`). -/
structure ImageData where
  page_url : String
  src : String
  alt : Option String := none
  deriving Repr, DecidableEq

/-- One `INSERT INTO links` row: `anchor_text || null` and
`is_external ? 1 : 0`. -/
def linkRowOf (sid : Nat) (l : LinkData) : LinkRow :=
  { session_id := sid, source_url := l.source_url, target_url := l.target_url,
    anchor_text := jsOrNullStr l.anchor_text,
    is_external := if l.is_external then 1 else 0 }

/-- One `INSERT INTO images` row: `img.alt ?? null` keeps an empty string. -/
def imageRowOf (sid : Nat) (i : ImageData) : ImageRow :=
  { session_id := sid, page_url := i.page_url, src := i.src, alt := i.alt }

/-- `Db.insertLinks`: bulk insert, in order. -/
def insertLinks (st : Store) (sid : Nat) (links : List LinkData) : Store :=
  { st with links := st.links ++ links.map (linkRowOf sid) }

/-- `Db.insertImages`: bulk insert, in order. -/
def insertImages (st : Store) (sid : Nat) (images : List ImageData) : Store :=
  { st with images := st.images ++ images.map (imageRowOf sid) }

/-- Where a forced failure is injected inside the `persistPageResult`
transaction body ("test via forced failure injection between steps" in the
spec). `noFail` is the unmodified code path. -/
inductive FailPoint where
  | noFail
  | afterPageUpdate
  | afterLinkInsert
  deriving Repr, DecidableEq

/-- The transaction body of `Db.persistPageResult`
(`markPageCrawled` then the two guarded bulk inserts), with an optional
injected failure between the steps. -/
def persistSteps (sid : Nat) (url : String) (pageData : PageData)
    (links : List LinkData) (images : List ImageData) (now : String)
    (fp : FailPoint) (st : Store) : Except String Store :=
  let st1 := markPageCrawled st sid url pageData now
  if fp = FailPoint.afterPageUpdate then Except.error "injected failure" else
  let st2 := if links.length > 0 then insertLinks st1 sid links else st1
  if fp = FailPoint.afterLinkInsert then Except.error "injected failure" else
  let st3 := if images.length > 0 then insertImages st2 sid images else st2
  Except.ok st3

/-- `better-sqlite3`'s `db.transaction(fn)()`: if the body throws, every write
it made is rolled back and the database is left as it was. -/
def transaction (f : Store → Except String Store) (st : Store) :
    Store × Option String :=
  match f st with
  | Except.ok st' => (st', none)
  | Except.error e => (st, some e)

/-- `Db.persistPageResult` with an injection point for the atomicity test. -/
def persistPageResultFp (sid : Nat) (url : String) (pageData : PageData)
    (links : List LinkData) (images : List ImageData) (now : String)
    (fp : FailPoint) (st : Store) : Store × Option String :=
  transaction (persistSteps sid url pageData links images now fp) st

/-- `Db.persistPageResult` as shipped (no injected failure). -/
def persistPageResult (sid : Nat) (url : String) (pageData : PageData)
    (links : List LinkData) (images : List ImageData) (now : String)
    (st : Store) : Store :=
  (persistPageResultFp sid url pageData links images now FailPoint.noFail st).1

/-- `Db.createSession`: appends a `sessions` row (label `|| null`) and returns
the fresh autoincrement id. -/
def createSession (st : Store) (siteUrl : String) (label : Option String) :
    Store × Nat :=
  let newId := st.sessions.foldl (fun m s => max m s.id) 0 + 1
  ({ st with
     sessions := st.sessions ++
       [{ id := newId, site_url := siteUrl, label := jsOrNullStr label }] },
   newId)

/-- `COUNT(*) FROM pages WHERE session_id = ? AND status = 'crawled'`. -/
def countCrawled (st : Store) (sid : Nat) : Nat :=
  (st.pages.filter (fun p => p.session_id == sid && p.status == "crawled")).length

/-- `Db.updateSessionStatus`: for `complete`/`interrupted` also sets
`completed_at` and `total_pages`; otherwise a status-only update. -/
def updateSessionStatus (st : Store) (sid : Nat) (status : String)
    (now : String) : Store :=
  if status == "complete" || status == "interrupted" then
    let c := countCrawled st sid
    { st with
      sessions := st.sessions.map (fun s =>
        if s.id == sid then
          { s with status := status, completed_at := some now,
                   total_pages := some c }
        else s) }
  else
    { st with
      sessions := st.sessions.map (fun s =>
        if s.id == sid then { s with status := status } else s) }

/-- `Db.getLatestInterruptedSession`:
`WHERE status='interrupted' ORDER BY id DESC LIMIT 1` — the interrupted row of
maximal id (ids are unique, being the table's autoincrement primary key). -/
def getLatestInterruptedSession (st : Store) : Option SessionRow :=
  (st.sessions.filter (fun s => s.status == "interrupted")).foldl
    (fun acc s =>
      match acc with
      | none => some s
      | some b => if s.id > b.id then some s else acc)
    none

/-- `Db.getAllPageUrls`: all page URLs of a session, any status. -/
def getAllPageUrls (st : Store) (sid : Nat) : List String :=
  (st.pages.filter (fun p => p.session_id == sid)).map (fun p => p.url)

/-- `Db.getLinkTargetUrls`: `SELECT DISTINCT target_url` of a session. -/
def getLinkTargetUrls (st : Store) (sid : Nat) : List String :=
  ((st.links.filter (fun l => l.session_id == sid)).map
    (fun l => l.target_url)).dedup

/-- A frontier entry: a `(url, depth)` pair. -/
structure Item where
  url : String
  depth : Nat
  deriving Repr, DecidableEq

/-- `Db.getPendingUrls`: pending pages of a session,
`ORDER BY depth ASC`. -/
def getPendingUrls (st : Store) (sid : Nat) : List Item :=
  ((st.pages.filter (fun p => p.session_id == sid && p.status == "pending")).map
    (fun p => Item.mk p.url p.depth)).mergeSort
    (fun a b => a.depth ≤ b.depth)

/-- The `Db` connection wrapper's close-tracking state: the `closed` flag plus
a count of `close()` calls actually forwarded to the underlying
`better-sqlite3` handle. -/
structure DbHandle where
  closed : Bool
  rawCloseCalls : Nat
  deriving Repr, DecidableEq

/-- `Db.close()`: returns immediately when already closed; otherwise marks the
wrapper closed and closes the underlying database once. -/
def closeDb (h : DbHandle) : DbHandle :=
  if h.closed then h
  else { closed := true, rawCloseCalls := h.rawCloseCalls + 1 }

/-- The response headers the crawler reads (`content-type`, `location`);
absent header ↦ `none`. -/
structure Headers where
  contentType : Option String := none
  location : Option String := none
  deriving Repr, DecidableEq

/-- The normalized result of `fetchPage` (which never throws): either a
response (`error = none`) or a failure (`error = some msg`). For redirects the
failure path of axios is folded back into a response whose `redirectUrl` is
`headers['location'] || null`. -/
structure FetchResult where
  status : Option Nat := none
  headers : Headers := {}
  data : Option String := none
  redirectUrl : Option String := none
  responseTimeMs : Nat := 0
  error : Option String := none
  deriving Repr, DecidableEq

/-- The SEO field set returned by the external `analyze` collaborator
(its keys, per the spec's Page Analyzer contract and the analyze tests). -/
structure SeoFields where
  title : Option String := none
  title_length : Option Nat := none
  meta_description : Option String := none
  meta_desc_length : Option Nat := none
  h1 : Option String := none
  h1_count : Nat := 0
  h2_count : Nat := 0
  canonical_url : Option String := none
  robots_directive : Option String := none
  x_robots_tag : Option String := none
  is_indexable : Nat := 1
  word_count : Nat := 0
  internal_link_count : Nat := 0
  external_link_count : Nat := 0
  image_count : Nat := 0
  images_missing_alt : Nat := 0
  images_empty_alt : Nat := 0
  has_schema : Nat := 0
  deriving Repr, DecidableEq

/-- The full result of `analyze(html, headers, url)`: SEO fields plus link and
image lists. -/
structure AnalyzeResult where
  seo : SeoFields
  links : List LinkData := []
  images : List ImageData := []

/-- The JS spread `{...base, ...seoFields}` in `processUrl`'s HTML branch:
`seoFields` is spread last, so its keys overwrite the base. -/
def applySeo (s : SeoFields) (d : PageData) : PageData :=
  { d with
    title := s.title, title_length := s.title_length,
    meta_description := s.meta_description,
    meta_desc_length := s.meta_desc_length, h1 := s.h1,
    h1_count := some s.h1_count, h2_count := some s.h2_count,
    canonical_url := s.canonical_url,
    robots_directive := s.robots_directive, x_robots_tag := s.x_robots_tag,
    is_indexable := some s.is_indexable, word_count := some s.word_count,
    internal_link_count := some s.internal_link_count,
    external_link_count := some s.external_link_count,
    image_count := some s.image_count,
    images_missing_alt := some s.images_missing_alt,
    images_empty_alt := some s.images_empty_alt,
    has_schema := some s.has_schema }

/-- The session context handed to `processUrl`: the session id plus the
external collaborators (robots policy, WHATWG URL resolution as used by
`new URL(location, url).href`, and the pure `analyze` extractor). -/
structure Ctx where
  sid : Nat
  isAllowed : String → Bool
  resolveUrl : String → String → String
  analyze : String → Headers → String → AnalyzeResult

/-- `headers['content-type'] || null` as read in `processUrl`. -/
def contentTypeOf (fr : FetchResult) : Option String :=
  jsOrNullStr fr.headers.contentType

/-- `contentType && contentType.includes('text/html')`. -/
def isHtmlOf (fr : FetchResult) : Bool :=
  match contentTypeOf fr with
  | some c => containsSub c "text/html"
  | none => false

/-- `data ? Buffer.byteLength(data, 'utf8') : null` — the empty string is
falsy, so an empty body records `null`, not `0`. -/
def pageSizeBytesOf (fr : FetchResult) : Option Nat :=
  match fr.data with
  | some d => if d = "" then none else some d.utf8ByteSize
  | none => none

/-- JS numeric coercion of a nullable status in `status >= n` comparisons
(`null` coerces to `0`). -/
def jsStatus (fr : FetchResult) : Nat :=
  fr.status.getD 0

/-- `processUrl(url, depth, ctx)` from `src/crawler.js`, given the outcome of
its single `fetchPage` call: classifies the outcome, persists it, and returns
the discovered URLs (`none` models the JS `null` return). -/
def processUrl (url : String) (depth : Nat) (ctx : Ctx) (fr : FetchResult)
    (now : String) (st : Store) : Store × Option (List Item) :=
  if ctx.isAllowed url then
    match fr.error with
    | some e => (markPageError st ctx.sid url none (some e) now, none)
    | none =>
      if 300 ≤ jsStatus fr ∧ jsStatus fr < 400 then
        let resolvedRedirect :=
          match jsOrNullStr fr.redirectUrl with
          | some loc => some (ctx.resolveUrl loc url)
          | none => none
        (markPageCrawled st ctx.sid url
          { emptyPage with
            status_code := some (jsStatus fr),
            redirect_url := resolvedRedirect,
            is_indexable := some 0,
            response_time_ms := some fr.responseTimeMs } now,
         resolvedRedirect.map (fun r => [Item.mk r depth]))
      else if 400 ≤ jsStatus fr then
        (markPageError st ctx.sid url (some (jsStatus fr))
          (some ("HTTP " ++ toString (jsStatus fr))) now, none)
      else if isHtmlOf fr = false ∨ jsTruthyStr fr.data = false then
        (markPageCrawled st ctx.sid url
          { emptyPage with
            status_code := some (jsStatus fr),
            content_type := contentTypeOf fr,
            response_time_ms := some fr.responseTimeMs,
            page_size_bytes := pageSizeBytesOf fr } now, none)
      else
        let ar := ctx.analyze (fr.data.getD "") fr.headers url
        let pageData := applySeo ar.seo
          { emptyPage with
            status_code := some (jsStatus fr),
            redirect_url := none,
            content_type := contentTypeOf fr,
            response_time_ms := some fr.responseTimeMs,
            page_size_bytes := pageSizeBytesOf fr }
        (persistPageResult ctx.sid url pageData ar.links ar.images now st,
         some ((ar.links.filter (fun l => !l.is_external)).map
           (fun l => Item.mk l.target_url (depth + 1))))
  else
    (markPageSkipped st ctx.sid url (some "disallowed by robots.txt"), none)

/-- The scheduler's frontier: the `seen` set (a JS `Set`, modelled as a list
with set semantics), the pending `queue`, and the store the gated enqueue
writes into. -/
structure Frontier where
  seen : List String
  queue : List Item
  store : Store
  deriving Repr, DecidableEq

/-- One gated enqueue (the body shared by the `initSession` seeding loops and
the worker pool's discovery handler): if the URL is already seen do nothing,
otherwise mark it seen, persist a pending page row, and push it on the
queue. -/
def enqueueStep (sid inSitemap : Nat) (f : Frontier) (it : Item) : Frontier :=
  if it.url ∈ f.seen then f
  else
    { seen := it.url :: f.seen,
      queue := f.queue ++ [it],
      store := upsertPage f.store sid
        { url := it.url, depth := it.depth, in_sitemap := inSitemap } }

/-- The gated enqueue applied to a list of discovered items, in order. -/
def enqueueNewUrls (sid inSitemap : Nat) (items : List Item) (f : Frontier) :
    Frontier :=
  items.foldl (enqueueStep sid inSitemap) f

/-- The value returned by `initSession` / `resumeSession`. -/
structure InitResult where
  sessionId : Nat
  seen : List String
  queue : List Item
  store : Store
  deriving Repr, DecidableEq

/-- `initSession` from `src/crawler.js` (its frontier/store effects; the
robots and sitemap fetches are the external inputs `sitemapUrls`): create the
session, seed every unseen sitemap URL at depth 0 with `in_sitemap=1`, then
seed the site root `siteUrl + '/'` unless that exact string is already
seen. -/
def initSession (st : Store) (siteUrl : String) (label : Option String)
    (sitemapUrls : List String) : InitResult :=
  let stSid := createSession st siteUrl label
  let f1 := enqueueNewUrls stSid.2 1 (sitemapUrls.map (fun u => Item.mk u 0))
    (Frontier.mk [] [] stSid.1)
  let siteRoot := siteUrl ++ "/"
  let f2 := enqueueNewUrls stSid.2 0 [Item.mk siteRoot 0] f1
  { sessionId := stSid.2, seen := f2.seen, queue := f2.queue,
    store := f2.store }

/-- A JS `Set`'s `forEach(add)` over a url list: insert each unseen element. -/
def setAddAll (urls : List String) (s : List String) : List String :=
  urls.foldl (fun s u => if u ∈ s then s else u :: s) s

/-- `resumeSession` from `src/crawler.js` (store effects; the robots re-fetch
is external): find the latest interrupted session (`none` models the thrown
`No interrupted session found`), rebuild `seen` from all page URLs plus all
distinct link targets, load the pending pages ordered by ascending depth, and
set the session status to `running`. -/
def resumeSession (st : Store) (now : String) : Option InitResult :=
  match getLatestInterruptedSession st with
  | none => none
  | some sess =>
    let seen := setAddAll (getLinkTargetUrls st sess.id)
      (setAddAll (getAllPageUrls st sess.id) [])
    let queue := getPendingUrls st sess.id
    let st' := updateSessionStatus st sess.id "running" now
    some { sessionId := sess.id, seen := seen, queue := queue, store := st' }

/-- The observable state of one `runWorkerPool` invocation: the frontier, the
in-flight work units (`activeWorkers` is their count), the dispatch log (the
URLs passed to `processUrl`, in order), the `shuttingDown` flag of the shared
`state` object, and whether the pool's completion promise has resolved. -/
structure PoolState where
  frontier : Frontier
  active : List Item
  dispatched : List String
  shuttingDown : Bool
  resolved : Bool
  deriving Repr, DecidableEq

/-- One event-loop turn of `runWorkerPool` (concurrency limit `conc`, session
`sid`):

* `dispatch` — one iteration of the `startNext` while loop: guarded by
  `activeWorkers < concurrency && queue.length > 0 && !state.shuttingDown`, it
  shifts the queue head, increments `activeWorkers`, and calls `processUrl`
  (logged in `dispatched`).
* `complete` — one `processUrl` promise settlement: the `.then` handler runs
  the gated enqueue over the discovered URLs (this is not suppressed by
  shutdown), and `.finally` decrements `activeWorkers`. `stMid` is the store
  as left by the in-flight unit's own persistence writes, and `newUrls` its
  (environment-dependent) discovered URLs.
* `shutdownSig` — the SIGINT handler's `state.shuttingDown = true` flag flip
  (the handler returns early when the flag is already set).
* `resolve` — the guarded `resolve()` call: it fires only when
  `activeWorkers === 0 && queue.length === 0`, and only once. -/
inductive PoolStep (conc sid : Nat) : PoolState → PoolState → Prop where
  | dispatch (s : PoolState) (it : Item) (rest : List Item)
      (hq : s.frontier.queue = it :: rest)
      (hsd : s.shuttingDown = false)
      (hlt : s.active.length < conc) :
      PoolStep conc sid s
        { s with frontier := { s.frontier with queue := rest },
                 active := it :: s.active,
                 dispatched := s.dispatched ++ [it.url] }
  | complete (s : PoolState) (it : Item) (newUrls : List Item) (stMid : Store)
      (hmem : it ∈ s.active) :
      PoolStep conc sid s
        { s with
          frontier := enqueueNewUrls sid 0 newUrls
            { s.frontier with store := stMid },
          active := s.active.erase it }
  | shutdownSig (s : PoolState) (hsd : s.shuttingDown = false) :
      PoolStep conc sid s { s with shuttingDown := true }
  | resolve (s : PoolState)
      (ha : s.active = []) (hq : s.frontier.queue = [])
      (hr : s.resolved = false) :
      PoolStep conc sid s { s with resolved := true }

/-- The pool state at the start of `runWorkerPool`, as `crawl` builds it from
a fresh or resumed session. -/
def initPoolState (r : InitResult) : PoolState :=
  { frontier := Frontier.mk r.seen r.queue r.store,
    active := [], dispatched := [], shuttingDown := false, resolved := false }

/-- The frontier/dispatch invariant of the worker pool: the dispatch log and
the queued URLs are jointly duplicate-free, and every URL among them has been
recorded in `seen`. -/
def FrontierInv (s : PoolState) : Prop :=
  (s.dispatched ++ s.frontier.queue.map Item.url).Nodup ∧
  ∀ u ∈ s.dispatched ++ s.frontier.queue.map Item.url, u ∈ s.frontier.seen

/-- Bound used to show the pool quiesces after a shutdown request: in-flight
units still to settle, plus one for the pending `resolve()`. -/
def poolMeasure (s : PoolState) : Nat :=
  s.active.length + (if s.resolved then 0 else 1)

/-! Concrete pool run used for the shutdown analysis: a fresh session on
`http://a` with an empty sitemap, whose only seed (the root) is dispatched;
a SIGINT flips the shutdown flag while that fetch is in flight; the fetch
then completes having discovered one new internal link. -/

/-- A fresh session on `http://a` with an empty sitemap. -/
def cInit : InitResult := initSession {} "http://a" none []

/-- The root seed of `cInit`. -/
def cRootItem : Item := Item.mk "http://a/" 0

/-- The single internal link discovered while fetching the root. -/
def cNewItem : Item := Item.mk "http://a/b" 1

/-- Pool state at the start of `runWorkerPool` for `cInit`. -/
def cS0 : PoolState := initPoolState cInit

/-- After dispatching the root seed (one worker in flight). -/
def cS1 : PoolState :=
  { cS0 with frontier := { cS0.frontier with queue := [] },
             active := cRootItem :: cS0.active,
             dispatched := cS0.dispatched ++ [cRootItem.url] }

/-- After the SIGINT handler flips the shutdown flag. -/
def cS2 : PoolState := { cS1 with shuttingDown := true }

/-- After the in-flight fetch settles, discovering `cNewItem`: no workers
remain active, yet the queue is non-empty. -/
def cS3 : PoolState :=
  { cS2 with
    frontier := enqueueNewUrls cInit.sessionId 0 [cNewItem]
      { cS2.frontier with store := cS2.frontier.store },
    active := cS2.active.erase cRootItem }

/-! Concrete inputs used to instantiate the claim theorems. -/

/-- A processing context for the site `http://a`: robots allow everything, the
URL resolver prefixes the origin, and `analyze` returns no links/images. -/
def cCtx : Ctx :=
  { sid := 1, isAllowed := fun _ => true,
    resolveUrl := fun loc _ => "http://a" ++ loc,
    analyze := fun _ _ _ => { seo := {} } }

/-- A `301` fetch outcome with `Location: /new`. -/
def cFrRedirect : FetchResult :=
  { status := some 301, redirectUrl := some "/new", responseTimeMs := 5 }

/-- A `200` fetch outcome with a PDF body. -/
def cFrPdf : FetchResult :=
  { status := some 200, headers := { contentType := some "application/pdf" },
    data := some "%PDF", responseTimeMs := 7 }

/-- A pending page row for `http://a/old` at depth 1. -/
def cRowOld : PageRow := { session_id := 1, url := "http://a/old", depth := 1 }

/-- A pending page row for `http://a/f.pdf` at depth 1. -/
def cRowPdf : PageRow := { session_id := 1, url := "http://a/f.pdf", depth := 1 }

/-- A store holding just `cRowOld`. -/
def cStOld : Store := { pages := [cRowOld] }

/-- A store holding just `cRowPdf`. -/
def cStPdf : Store := { pages := [cRowPdf] }

/-- An interrupted session row. -/
def cSessIntr : SessionRow := { id := 1, site_url := "http://a", status := "interrupted" }

/-- A store with an interrupted session, one pending page and one link. -/
def cStRes : Store :=
  { sessions := [cSessIntr],
    pages := [{ session_id := 1, url := "http://a/p", depth := 2 }],
    links := [{ session_id := 1, source_url := "http://a/",
                target_url := "http://a/t", anchor_text := none,
                is_external := 0 }] }

/-- A pending page row for `(1, "u")`. -/
def cRowU : PageRow := { session_id := 1, url := "u" }

/-- A store holding just `cRowU`. -/
def cStU : Store := { pages := [cRowU] }

/-! ### Lemmas about the gated enqueue -/

theorem enqueueStep_seen_mem (sid flag : Nat) (f : Frontier) (it : Item)
    (u : String) :
    u ∈ (enqueueStep sid flag f it).seen ↔ u ∈ f.seen ∨ u = it.url := by
  unfold enqueueStep
  split
  · rename_i h
    constructor
    · exact fun hu => Or.inl hu
    · rintro (hu | rfl)
      · exact hu
      · exact h
  · simp [List.mem_cons, or_comm]

theorem enqueueNewUrls_seen_mem (sid flag : Nat) (items : List Item)
    (f : Frontier) (u : String) :
    u ∈ (enqueueNewUrls sid flag items f).seen ↔
      u ∈ f.seen ∨ u ∈ items.map Item.url := by
  induction items generalizing f with
  | nil => simp [enqueueNewUrls]
  | cons it rest ih =>
    simp only [enqueueNewUrls, List.foldl_cons] at ih ⊢
    rw [ih, enqueueStep_seen_mem]
    simp only [List.map_cons, List.mem_cons]
    tauto

theorem enqueueStep_queue_mono (sid flag : Nat) (f : Frontier) (it x : Item)
    (hx : x ∈ f.queue) : x ∈ (enqueueStep sid flag f it).queue := by
  unfold enqueueStep
  split
  · exact hx
  · simp [List.mem_append, hx]

theorem enqueueNewUrls_queue_mono (sid flag : Nat) (items : List Item)
    (f : Frontier) (x : Item) (hx : x ∈ f.queue) :
    x ∈ (enqueueNewUrls sid flag items f).queue := by
  induction items generalizing f with
  | nil => exact hx
  | cons it rest ih =>
    simp only [enqueueNewUrls, List.foldl_cons] at ih ⊢
    exact ih _ (enqueueStep_queue_mono sid flag f it x hx)

theorem enqueueNewUrls_seen_queue (sid flag : Nat) (items : List Item)
    (f : Frontier) (hd : ∀ it ∈ items, it.depth = 0)
    (hf : ∀ u ∈ f.seen, Item.mk u 0 ∈ f.queue) :
    ∀ u ∈ (enqueueNewUrls sid flag items f).seen,
      Item.mk u 0 ∈ (enqueueNewUrls sid flag items f).queue := by
  induction items generalizing f with
  | nil => exact hf
  | cons it rest ih =>
    simp only [enqueueNewUrls, List.foldl_cons] at ih ⊢
    refine ih _ (fun x hx => hd x (List.mem_cons_of_mem _ hx)) ?_
    intro u hu
    unfold enqueueStep at hu ⊢
    by_cases h : it.url ∈ f.seen
    · simp only [if_pos h] at hu ⊢
      exact hf u hu
    · simp only [if_neg h] at hu ⊢
      rcases List.mem_cons.mp hu with heq | hu'
      · have hit : Item.mk u 0 = it := by
          have h0 := hd it (List.mem_cons_self _ _)
          cases it
          simp_all
        rw [hit]
        exact List.mem_append_right _ (List.mem_singleton.mpr rfl)
      · exact List.mem_append_left _ (hf u hu')

theorem enqueueStep_inv (sid flag : Nat) (d : List String) (f : Frontier)
    (it : Item)
    (h1 : (d ++ f.queue.map Item.url).Nodup)
    (h2 : ∀ u ∈ d ++ f.queue.map Item.url, u ∈ f.seen) :
    (d ++ (enqueueStep sid flag f it).queue.map Item.url).Nodup ∧
      (∀ u ∈ d ++ (enqueueStep sid flag f it).queue.map Item.url,
        u ∈ (enqueueStep sid flag f it).seen) := by
  unfold enqueueStep
  split
  · exact ⟨h1, h2⟩
  · rename_i h
    constructor
    · have hnot : it.url ∉ d ++ f.queue.map Item.url := fun hmem => h (h2 _ hmem)
      simp only [List.map_append, List.map_cons, List.map_nil]
      rw [← List.append_assoc]
      rw [List.nodup_append]
      refine ⟨h1, List.nodup_singleton _, ?_⟩
      intro x hx hx'
      rw [List.mem_singleton] at hx'
      exact hnot (hx' ▸ hx)
    · intro u hu
      simp only [List.map_append, List.map_cons, List.map_nil] at hu
      rw [← List.append_assoc] at hu
      rcases List.mem_append.mp hu with hu' | hu'
      · exact List.mem_cons_of_mem _ (h2 _ hu')
      · simp only [List.mem_singleton] at hu'
        exact hu' ▸ List.mem_cons_self _ _

theorem enqueueNewUrls_inv (sid flag : Nat) (items : List Item)
    (d : List String) (f : Frontier)
    (h1 : (d ++ f.queue.map Item.url).Nodup)
    (h2 : ∀ u ∈ d ++ f.queue.map Item.url, u ∈ f.seen) :
    (d ++ (enqueueNewUrls sid flag items f).queue.map Item.url).Nodup ∧
      (∀ u ∈ d ++ (enqueueNewUrls sid flag items f).queue.map Item.url,
        u ∈ (enqueueNewUrls sid flag items f).seen) := by
  induction items generalizing f with
  | nil => exact ⟨h1, h2⟩
  | cons it rest ih =>
    simp only [enqueueNewUrls, List.foldl_cons] at ih ⊢
    obtain ⟨g1, g2⟩ := enqueueStep_inv sid flag d f it h1 h2
    exact ih _ g1 g2

/-! ### C7 — root seeding in `initSession` -/

/-- **C7.** On fresh initialization, `initSession` seeds the site root
`siteUrl ++ "/"` at depth 0 in addition to the sitemap seeds: the root item is
always in the returned queue, the queued URLs are duplicate-free (so the root
is enqueued exactly once, i.e. the dedicated root pass is skipped exactly when
the sitemap pass already enqueued the identical string), and the `seen` set is
exactly the sitemap URLs plus the exact root string — hence a sitemap entry
differing only by the trailing slash (e.g. `siteUrl` itself) does not suppress
the root seed. -/
theorem initSession_seeds_root (st : Store) (siteUrl : String)
    (label : Option String) (sitemapUrls : List String) :
    Item.mk (siteUrl ++ "/") 0 ∈ (initSession st siteUrl label sitemapUrls).queue ∧
    ((initSession st siteUrl label sitemapUrls).queue.map Item.url).Nodup ∧
    (∀ u, u ∈ (initSession st siteUrl label sitemapUrls).seen ↔
      u ∈ sitemapUrls ∨ u = siteUrl ++ "/") := by
  unfold initSession
  refine ⟨?_, ?_, ?_⟩
  · by_cases h : (siteUrl ++ "/") ∈
      (enqueueNewUrls (createSession st siteUrl label).2 1
        (sitemapUrls.map (fun u => Item.mk u 0))
        (Frontier.mk [] [] (createSession st siteUrl label).1)).seen
    · refine enqueueNewUrls_queue_mono _ _ _ _ _ ?_
      refine enqueueNewUrls_seen_queue _ _ _ _ ?_ ?_ _ h
      · intro x hx
        rcases List.mem_map.mp hx with ⟨u, _, rfl⟩
        rfl
      · intro u hu
        simp at hu
    · show Item.mk (siteUrl ++ "/") 0 ∈ (enqueueStep _ _ _ _).queue
      unfold enqueueStep
      simp only [if_neg h]
      exact List.mem_append_right _ (List.mem_singleton.mpr rfl)
  · have h0 : (([] : List String) ++
        (Frontier.mk [] [] (createSession st siteUrl label).1).queue.map
          Item.url).Nodup := by simp
    have h0' : ∀ u ∈ ([] : List String) ++
        (Frontier.mk [] [] (createSession st siteUrl label).1).queue.map
          Item.url, u ∈ (Frontier.mk [] []
            (createSession st siteUrl label).1).seen := by simp
    obtain ⟨g1, g2⟩ := enqueueNewUrls_inv (createSession st siteUrl label).2 1
      (sitemapUrls.map (fun u => Item.mk u 0)) [] _ h0 h0'
    obtain ⟨g3, _⟩ := enqueueNewUrls_inv (createSession st siteUrl label).2 0
      [Item.mk (siteUrl ++ "/") 0] [] _ g1 g2
    simpa using g3
  · intro u
    rw [enqueueNewUrls_seen_mem, enqueueNewUrls_seen_mem]
    simp [List.map_map, Function.comp]

/-- Witness for C7: a sitemap entry `http://a` differing from the root
`http://a/` only by the trailing slash does not suppress the root seed. -/
theorem initSession_seeds_root_witness :
    Item.mk "http://a/" 0 ∈ (initSession {} "http://a" none ["http://a"]).queue :=
  (initSession_seeds_root {} "http://a" none ["http://a"]).1

/-! ### C8 — duplicate `upsertPage` is a no-op -/

/-- **C8.** A second or later `upsertPage` call with the same `(session, URL)`
key leaves the store completely unchanged (`ON CONFLICT DO NOTHING`): the
existing row keeps its depth and sitemap flag whatever the rediscovery
supplies, and no other row of any table is affected. -/
theorem upsertPage_duplicate_noop (st : Store) (sid : Nat) (p : UpsertArgs)
    (r : PageRow) (hr : r ∈ st.pages) (hsid : r.session_id = sid)
    (hurl : r.url = p.url) :
    upsertPage st sid p = st := by
  unfold upsertPage
  have hex : st.pageExists sid p.url = true := by
    unfold Store.pageExists
    rw [List.any_eq_true]
    exact ⟨r, hr, by simp [hsid, hurl]⟩
  simp [hex]

/-- Witness for C8: a store holding a page row for `(1, "u")` at depth 0 with
`in_sitemap = 1`; re-upserting `"u"` at depth 7 with `in_sitemap = 0` changes
nothing. -/
theorem upsertPage_duplicate_noop_witness :
    upsertPage
      (Store.mk [] [{ session_id := 1, url := "u", in_sitemap := 1 }] [] [])
      1 { url := "u", depth := 7 } =
      Store.mk [] [{ session_id := 1, url := "u", in_sitemap := 1 }] [] [] :=
  upsertPage_duplicate_noop _ 1 _ { session_id := 1, url := "u", in_sitemap := 1 }
    (List.mem_singleton.mpr rfl) rfl rfl

/-! ### C10 — `Db.close()` is idempotent -/

/-- **C10.** `Db.close()` is idempotent: the first call (on an open handle)
marks the wrapper closed and forwards exactly one close to the underlying
database; every subsequent call returns without touching the underlying
handle, so a double close equals a single close. -/
theorem closeDb_idempotent (h : DbHandle) :
    closeDb (closeDb h) = closeDb h ∧ (closeDb h).closed = true ∧
    (h.closed = false →
      closeDb h = { closed := true, rawCloseCalls := h.rawCloseCalls + 1 }) := by
  unfold closeDb
  by_cases hc : h.closed
  · simp [hc]
  · simp [hc]

/-- Witness for C10: closing a fresh handle twice equals closing it once, and
forwards exactly one underlying close. -/
theorem closeDb_idempotent_witness :
    closeDb (closeDb (DbHandle.mk false 0)) = closeDb (DbHandle.mk false 0) ∧
    closeDb (DbHandle.mk false 0) = { closed := true, rawCloseCalls := 1 } :=
  ⟨(closeDb_idempotent (DbHandle.mk false 0)).1,
   (closeDb_idempotent (DbHandle.mk false 0)).2.2 rfl⟩

/-! ### C1 — at-most-once dispatch -/

theorem poolStep_preserves_inv (conc sid : Nat) (s s' : PoolState)
    (h : PoolStep conc sid s s') (hi : FrontierInv s) : FrontierInv s' := by
  obtain ⟨h1, h2⟩ := hi
  cases h with
  | dispatch it rest hq hsd hlt =>
    rw [hq] at h1 h2
    refine ⟨?_, ?_⟩
    · show ((s.dispatched ++ [it.url]) ++ rest.map Item.url).Nodup
      rw [List.append_assoc]
      simpa using h1
    · show ∀ u ∈ (s.dispatched ++ [it.url]) ++ rest.map Item.url,
        u ∈ s.frontier.seen
      intro u hu
      rw [List.append_assoc] at hu
      refine h2 u ?_
      simpa using hu
  | complete it newUrls stMid hmem =>
    exact enqueueNewUrls_inv sid 0 newUrls s.dispatched
      { s.frontier with store := stMid } h1 h2
  | shutdownSig hsd => exact ⟨h1, h2⟩
  | resolve ha hq hr => exact ⟨h1, h2⟩

theorem reachable_frontierInv (conc sid : Nat) (s0 s : PoolState)
    (h : Relation.ReflTransGen (PoolStep conc sid) s0 s)
    (h0 : FrontierInv s0) : FrontierInv s := by
  induction h with
  | refl => exact h0
  | tail hab hbc ih => exact poolStep_preserves_inv _ _ _ _ hbc ih

theorem initSession_frontierInv (st : Store) (siteUrl : String)
    (label : Option String) (sitemapUrls : List String) :
    FrontierInv (initPoolState (initSession st siteUrl label sitemapUrls)) := by
  unfold initPoolState initSession
  have h0 : (([] : List String) ++
      (Frontier.mk [] [] (createSession st siteUrl label).1).queue.map
        Item.url).Nodup := by simp
  have h0' : ∀ u ∈ ([] : List String) ++
      (Frontier.mk [] [] (createSession st siteUrl label).1).queue.map
        Item.url, u ∈ (Frontier.mk [] []
          (createSession st siteUrl label).1).seen := by simp
  obtain ⟨g1, g2⟩ := enqueueNewUrls_inv (createSession st siteUrl label).2 1
    (sitemapUrls.map (fun u => Item.mk u 0)) [] _ h0 h0'
  obtain ⟨g3, g4⟩ := enqueueNewUrls_inv (createSession st siteUrl label).2 0
    [Item.mk (siteUrl ++ "/") 0] [] _ g1 g2
  exact ⟨g3, g4⟩

/-- **C1.** In every session started fresh via `initSession` and driven by any
sequence of `runWorkerPool` steps, each URL is dispatched to `processUrl` at
most once: the dispatch log is duplicate-free (so a URL discovered from two
distinct source pages is fetched exactly once), because a URL enters `seen`
the moment it is first enqueued, a seen URL is never enqueued again, and only
dequeued URLs are dispatched — every logged or queued URL is in `seen`. -/
theorem pool_dispatch_at_most_once (conc : Nat) (st : Store)
    (siteUrl : String) (label : Option String) (sitemapUrls : List String)
    (S : PoolState)
    (h : Relation.ReflTransGen
      (PoolStep conc (initSession st siteUrl label sitemapUrls).sessionId)
      (initPoolState (initSession st siteUrl label sitemapUrls)) S) :
    S.dispatched.Nodup ∧
    ∀ u ∈ S.dispatched ++ S.frontier.queue.map Item.url,
      u ∈ S.frontier.seen := by
  have hi := reachable_frontierInv _ _ _ _ h
    (initSession_frontierInv st siteUrl label sitemapUrls)
  exact ⟨(List.nodup_append.mp hi.1).1, hi.2⟩

/-- Witness for C1: the fresh session on `http://a` with an empty sitemap, at
the start of the pool run. -/
theorem pool_dispatch_at_most_once_witness :
    (initPoolState (initSession {} "http://a" none [])).dispatched.Nodup :=
  (pool_dispatch_at_most_once 2 {} "http://a" none [] _
    Relation.ReflTransGen.refl).1

/-! ### C3 — pool behaviour after a shutdown request -/

/-- **C3 counterexample.** The claim "runWorkerPool terminates after a
shutdown request from every reachable state, including states where pending
URLs remain in the queue" is false: from the fresh session on `http://a`,
dispatch the root, receive a SIGINT, and let the in-flight fetch settle with
one discovered link. The reached state `cS3` has no active workers, a
non-empty queue and an unresolved pool promise — and no `runWorkerPool` event
applies to it (the `resolve()` guard `activeWorkers === 0 && queue.length ===
0` is false and dispatch is suppressed), so the completion promise can never
resolve. -/
theorem pool_shutdown_counterexample :
    Relation.ReflTransGen (PoolStep 1 cInit.sessionId) cS0 cS3 ∧
    cS3.shuttingDown = true ∧ cS3.active = [] ∧
    cS3.frontier.queue ≠ [] ∧ cS3.resolved = false ∧
    (∀ S', ¬ PoolStep 1 cInit.sessionId cS3 S') ∧
    (∀ S', Relation.ReflTransGen (PoolStep 1 cInit.sessionId) cS3 S' →
      S'.resolved = false) := by
  have hstuck : ∀ S', ¬ PoolStep 1 cInit.sessionId cS3 S' := by
    intro S' h
    cases h with
    | dispatch it rest hq hsd hlt => exact absurd hsd (by decide)
    | complete it newUrls stMid hmem =>
      rw [show cS3.active = [] from by decide] at hmem
      exact absurd hmem (List.not_mem_nil it)
    | shutdownSig hsd => exact absurd hsd (by decide)
    | resolve ha hq hr => exact absurd hq (by decide)
  refine ⟨?_, by decide, by decide, by decide, by decide, hstuck, ?_⟩
  · have s1 : PoolStep 1 cInit.sessionId cS0 cS1 :=
      PoolStep.dispatch cS0 cRootItem [] (by decide) (by decide) (by decide)
    have s2 : PoolStep 1 cInit.sessionId cS1 cS2 :=
      PoolStep.shutdownSig cS1 (by decide)
    have s3 : PoolStep 1 cInit.sessionId cS2 cS3 :=
      PoolStep.complete cS2 cRootItem [cNewItem] cS2.frontier.store
        (by decide)
    exact ((Relation.ReflTransGen.single s1).tail s2).tail s3
  · intro S' h
    rcases Relation.ReflTransGen.cases_head h with heq | ⟨b, hstep, _⟩
    · rw [← heq]; decide
    · exact absurd hstep (hstuck b)

/-- **C3 (amended).** After a shutdown request, `runWorkerPool` stops
dispatching new work (the dispatch log never grows again), the event system
quiesces — every further step keeps the flag set and strictly decreases the
in-flight-plus-pending-resolve measure, so at most `active + 1` events remain
— and the completion promise resolves exactly through the
zero-active-workers-and-empty-queue condition: from a shutdown state whose
in-flight work has finished, `resolve` fires iff the queue is also empty (by
the counterexample, a state with pending URLs left in the queue never
resolves). -/
theorem pool_shutdown_quiesces (conc sid : Nat) (s : PoolState)
    (hsd : s.shuttingDown = true) :
    (∀ s', PoolStep conc sid s s' →
      s'.shuttingDown = true ∧ s'.dispatched = s.dispatched ∧
      poolMeasure s' < poolMeasure s) ∧
    (s.active = [] → s.frontier.queue = [] → s.resolved = false →
      PoolStep conc sid s { s with resolved := true }) := by
  constructor
  · intro s' h
    cases h with
    | dispatch it rest hq hsd' hlt =>
      rw [hsd] at hsd'
      exact absurd hsd' (by simp)
    | complete it newUrls stMid hmem =>
      refine ⟨hsd, rfl, ?_⟩
      unfold poolMeasure
      have hlen : (s.active.erase it).length = s.active.length - 1 :=
        List.length_erase_of_mem hmem
      have hpos : 0 < s.active.length :=
        List.length_pos.mpr (List.ne_nil_of_mem hmem)
      show (s.active.erase it).length + (if s.resolved then 0 else 1) <
        s.active.length + (if s.resolved then 0 else 1)
      omega
    | shutdownSig hsd' =>
      rw [hsd] at hsd'
      exact absurd hsd' (by simp)
    | resolve ha hq hr =>
      refine ⟨hsd, rfl, ?_⟩
      unfold poolMeasure
      show s.active.length + (if true then 0 else 1) <
        s.active.length + (if s.resolved then 0 else 1)
      rw [hr]
      simp
  · intro ha hq hr
    exact PoolStep.resolve s ha hq hr

/-- Witness for C3 (amended): a drained shutdown state resolves. -/
theorem pool_shutdown_quiesces_witness :
    PoolStep 1 1 (PoolState.mk (Frontier.mk [] [] {}) [] [] true false)
      { PoolState.mk (Frontier.mk [] [] {}) [] [] true false with
        resolved := true } :=
  (pool_shutdown_quiesces 1 1
    (PoolState.mk (Frontier.mk [] [] {}) [] [] true false) rfl).2 rfl rfl rfl

/-! ### C2 — transactional atomicity of `persistPageResult` -/

/-- **C2.** `persistPageResult` runs the page update and the link/image
inserts inside one transaction: with a failure injected at either point
between the steps, the whole write rolls back and the store is returned
unchanged (so a page is never observably marked crawled without its link and
image rows); on the unmodified path the links and images are appended and the
matching page row is marked crawled in the same committed store. -/
theorem persistPageResult_atomic (sid : Nat) (url : String) (pd : PageData)
    (links : List LinkData) (images : List ImageData) (now : String)
    (st : Store) :
    (∀ fp, fp ≠ FailPoint.noFail →
      persistPageResultFp sid url pd links images now fp st =
        (st, some "injected failure")) ∧
    (persistPageResult sid url pd links images now st).links =
      st.links ++ links.map (linkRowOf sid) ∧
    (persistPageResult sid url pd links images now st).images =
      st.images ++ images.map (imageRowOf sid) ∧
    ∀ r ∈ st.pages, r.session_id = sid → r.url = url →
      { r with status := "crawled", crawled_at := some now, data := pd } ∈
        (persistPageResult sid url pd links images now st).pages := by
  have hpages : (persistPageResult sid url pd links images now st).pages =
      st.pages.map (fun r =>
        if r.session_id == sid && r.url == url then
          { r with status := "crawled", crawled_at := some now, data := pd }
        else r) := by
    cases links <;> cases images <;>
      simp [persistPageResult, persistPageResultFp, transaction,
        persistSteps, insertLinks, insertImages, markPageCrawled]
  refine ⟨?_, ?_, ?_, ?_⟩
  · intro fp hfp
    cases fp with
    | noFail => exact absurd rfl hfp
    | afterPageUpdate =>
      simp [persistPageResultFp, transaction, persistSteps]
    | afterLinkInsert =>
      simp [persistPageResultFp, transaction, persistSteps]
  · cases links <;> cases images <;>
      simp [persistPageResult, persistPageResultFp, transaction,
        persistSteps, insertLinks, insertImages, markPageCrawled]
  · cases links <;> cases images <;>
      simp [persistPageResult, persistPageResultFp, transaction,
        persistSteps, insertLinks, insertImages, markPageCrawled]
  · intro r hr h1 h2
    rw [hpages]
    refine List.mem_map.mpr ⟨r, hr, ?_⟩
    simp [h1, h2]

/-- Witness for C2: on a one-page store, injecting a failure right after the
page update rolls everything back, while the unmodified path marks the row
crawled. -/
theorem persistPageResult_atomic_witness :
    persistPageResultFp 1 "u" emptyPage [LinkData.mk "u" "v" none false] []
      "t" FailPoint.afterPageUpdate cStU = (cStU, some "injected failure") ∧
    { cRowU with
      status := "crawled", crawled_at := some "t", data := emptyPage } ∈
      (persistPageResult 1 "u" emptyPage [LinkData.mk "u" "v" none false] []
        "t" cStU).pages :=
  ⟨(persistPageResult_atomic 1 "u" emptyPage [LinkData.mk "u" "v" none false]
      [] "t" cStU).1 FailPoint.afterPageUpdate (by decide),
   (persistPageResult_atomic 1 "u" emptyPage [LinkData.mk "u" "v" none false]
      [] "t" cStU).2.2.2 cRowU (List.mem_singleton.mpr rfl) rfl rfl⟩

/-! ### C9 — `markPageSkipped` frame -/

/-- **C9.** `markPageSkipped` modifies only the `status` (to `skipped`) and
`error_message` columns of the page rows matching `(session, URL)` — the row
keeps its SEO data, depth, sitemap flag, status code and, unlike
`markPageError` (shown alongside), its `crawled_at` timestamp — while
non-matching rows and the other tables are untouched. -/
theorem markPageSkipped_frame (st : Store) (sid : Nat) (url : String)
    (reason : Option String) (now : String) (i : Nat) (r : PageRow)
    (h : st.pages[i]? = some r) :
    ((¬(r.session_id = sid ∧ r.url = url)) →
      (markPageSkipped st sid url reason).pages[i]? = some r) ∧
    ((r.session_id = sid ∧ r.url = url) →
      (markPageSkipped st sid url reason).pages[i]? =
        some { r with status := "skipped",
                      error_message := jsOrNullStr reason } ∧
      (markPageError st sid url (some 500) (some "HTTP 500") now).pages[i]? =
        some { r with status := "error",
                      data := { r.data with status_code := some 500 },
                      error_message := some "HTTP 500",
                      crawled_at := some now }) ∧
    (markPageSkipped st sid url reason).links = st.links ∧
    (markPageSkipped st sid url reason).images = st.images ∧
    (markPageSkipped st sid url reason).sessions = st.sessions := by
  refine ⟨?_, ?_, rfl, rfl, rfl⟩
  · intro hnot
    have hc : ¬((r.session_id == sid && r.url == url) = true) := by
      simp only [Bool.and_eq_true, beq_iff_eq]
      exact hnot
    show (st.pages.map _)[i]? = some r
    rw [List.getElem?_map, h]
    show some (if (r.session_id == sid && r.url == url) = true then _ else r) =
      some r
    rw [if_neg hc]
  · intro hmatch
    have hc : (r.session_id == sid && r.url == url) = true := by
      simp only [Bool.and_eq_true, beq_iff_eq]
      exact hmatch
    constructor
    · show (st.pages.map _)[i]? = some _
      rw [List.getElem?_map, h]
      show some (if (r.session_id == sid && r.url == url) = true
        then { r with status := "skipped",
                      error_message := jsOrNullStr reason } else r) = some _
      rw [if_pos hc]
    · show (st.pages.map _)[i]? = some _
      rw [List.getElem?_map, h]
      show some (if (r.session_id == sid && r.url == url) = true
        then { r with status := "error",
                      data := { r.data with
                        status_code := jsOrNullNat (some 500) },
                      error_message := jsOrNullStr (some "HTTP 500"),
                      crawled_at := some now } else r) = some _
      rw [if_pos hc]
      rfl

/-- Witness for C9: the matching row of the one-page store is skipped with the
reason recorded and its `crawled_at` left `none`, while `markPageError` stamps
`crawled_at`. -/
theorem markPageSkipped_frame_witness :
    (markPageSkipped cStU 1 "u" (some "blocked")).pages[0]? =
      some { cRowU with status := "skipped",
                        error_message := some "blocked" } ∧
    (markPageError cStU 1 "u" (some 500) (some "HTTP 500") "t").pages[0]? =
      some { cRowU with status := "error",
                        data := { cRowU.data with status_code := some 500 },
                        error_message := some "HTTP 500",
                        crawled_at := some "t" } :=
  (markPageSkipped_frame cStU 1 "u" (some "blocked") "t" 0 cRowU rfl).2.1
    ⟨rfl, rfl⟩

/-! ### C5 — redirect (3xx) handling in `processUrl` -/

/-- **C5.** For every allowed, non-error fetch outcome with a 3xx status code
`c` on source `url` at depth `depth`, `processUrl` marks the page crawled with
`status_code = c`, `redirect_url` the `Location` value resolved against the
source URL (when one was sent), `is_indexable = 0` and every other SEO field
at its `emptyPage` default; it touches no other table; and it returns exactly
the one resolved target at the *same* depth when a target was resolved, and
no discovered URLs otherwise. -/
theorem processUrl_redirect (url : String) (depth : Nat) (ctx : Ctx)
    (fr : FetchResult) (now : String) (st : Store) (c : Nat)
    (hallow : ctx.isAllowed url = true) (herr : fr.error = none)
    (hst : fr.status = some c) (h3 : 300 ≤ c) (h4 : c < 400) :
    (∀ r ∈ st.pages, r.session_id = ctx.sid → r.url = url →
      { r with
        status := "crawled", crawled_at := some now,
        data := { emptyPage with
          status_code := some c,
          redirect_url := (jsOrNullStr fr.redirectUrl).map
            (fun loc => ctx.resolveUrl loc url),
          is_indexable := some 0,
          response_time_ms := some fr.responseTimeMs } } ∈
        (processUrl url depth ctx fr now st).1.pages) ∧
    (processUrl url depth ctx fr now st).1.links = st.links ∧
    (processUrl url depth ctx fr now st).1.images = st.images ∧
    (processUrl url depth ctx fr now st).1.sessions = st.sessions ∧
    (processUrl url depth ctx fr now st).2 =
      (jsOrNullStr fr.redirectUrl).map
        (fun loc => [Item.mk (ctx.resolveUrl loc url) depth]) := by
  have hs : jsStatus fr = c := by simp [jsStatus, hst]
  have hred : processUrl url depth ctx fr now st =
      (markPageCrawled st ctx.sid url
        { emptyPage with
          status_code := some c,
          redirect_url := (jsOrNullStr fr.redirectUrl).map
            (fun loc => ctx.resolveUrl loc url),
          is_indexable := some 0,
          response_time_ms := some fr.responseTimeMs } now,
       (jsOrNullStr fr.redirectUrl).map
         (fun loc => [Item.mk (ctx.resolveUrl loc url) depth])) := by
    unfold processUrl
    rw [hallow, herr]
    simp only [if_true, hs]
    rw [if_pos ⟨h3, h4⟩]
    cases hjf : jsOrNullStr fr.redirectUrl <;> simp
  rw [hred]
  refine ⟨?_, rfl, rfl, rfl, rfl⟩
  intro r hr h1 h2
  exact List.mem_map.mpr ⟨r, hr, by simp [h1, h2]⟩

/-- Witness for C5: a 301 with `Location: /new` on `http://a/old` at depth 1
yields a crawled row with the resolved absolute redirect target,
`is_indexable = 0`, and enqueues the target at depth 1. -/
theorem processUrl_redirect_witness :
    { cRowOld with
      status := "crawled", crawled_at := some "t",
      data := { emptyPage with
        status_code := some 301, redirect_url := some "http://a/new",
        is_indexable := some 0, response_time_ms := some 5 } } ∈
      (processUrl "http://a/old" 1 cCtx cFrRedirect "t" cStOld).1.pages ∧
    (processUrl "http://a/old" 1 cCtx cFrRedirect "t" cStOld).2 =
      some [Item.mk "http://a/new" 1] := by
  have h := processUrl_redirect "http://a/old" 1 cCtx cFrRedirect "t" cStOld
    301 rfl rfl rfl (by decide) (by decide)
  refine ⟨?_, ?_⟩
  · have hm := h.1 cRowOld (List.mem_singleton.mpr rfl) rfl rfl
    simpa [cCtx, cFrRedirect, jsOrNullStr] using hm
  · rw [h.2.2.2.2]
    decide

/-! ### C6 — non-HTML / empty-body handling in `processUrl` -/

/-- **C6.** For every allowed, non-error, non-redirect, non-4xx/5xx fetch
outcome whose content type lacks the `text/html` marker or whose body is
empty, `processUrl` marks the page crawled with the content type and the
computed byte size recorded (`null` for an absent or empty body), every SEO
field at its `emptyPage` null/zero default, `is_indexable` left unset
(`none`, not `0`), no other table touched, and no discovered URLs. -/
theorem processUrl_nonhtml (url : String) (depth : Nat) (ctx : Ctx)
    (fr : FetchResult) (now : String) (st : Store)
    (hallow : ctx.isAllowed url = true) (herr : fr.error = none)
    (hlt : jsStatus fr < 300)
    (hnon : isHtmlOf fr = false ∨ jsTruthyStr fr.data = false) :
    (∀ r ∈ st.pages, r.session_id = ctx.sid → r.url = url →
      { r with
        status := "crawled", crawled_at := some now,
        data := { emptyPage with
          status_code := some (jsStatus fr),
          content_type := contentTypeOf fr,
          response_time_ms := some fr.responseTimeMs,
          page_size_bytes := pageSizeBytesOf fr } } ∈
        (processUrl url depth ctx fr now st).1.pages) ∧
    ({ emptyPage with
       status_code := some (jsStatus fr),
       content_type := contentTypeOf fr,
       response_time_ms := some fr.responseTimeMs,
       page_size_bytes := pageSizeBytesOf fr } : PageData).is_indexable =
      none ∧
    (processUrl url depth ctx fr now st).1.links = st.links ∧
    (processUrl url depth ctx fr now st).1.images = st.images ∧
    (processUrl url depth ctx fr now st).1.sessions = st.sessions ∧
    (processUrl url depth ctx fr now st).2 = none := by
  have hred : processUrl url depth ctx fr now st =
      (markPageCrawled st ctx.sid url
        { emptyPage with
          status_code := some (jsStatus fr),
          content_type := contentTypeOf fr,
          response_time_ms := some fr.responseTimeMs,
          page_size_bytes := pageSizeBytesOf fr } now, none) := by
    unfold processUrl
    rw [hallow, herr]
    simp only [if_true]
    rw [if_neg (by omega), if_neg (by omega), if_pos hnon]
  rw [hred]
  refine ⟨?_, rfl, rfl, rfl, rfl, rfl⟩
  intro r hr h1 h2
  exact List.mem_map.mpr ⟨r, hr, by simp [h1, h2]⟩

/-- Witness for C6: a 200 `application/pdf` response persists a crawled row
with `is_indexable = none`, zeroed SEO counters, the content type and size
recorded, and discovers nothing. -/
theorem processUrl_nonhtml_witness :
    { cRowPdf with
      status := "crawled", crawled_at := some "t",
      data := { emptyPage with
        status_code := some 200, content_type := some "application/pdf",
        response_time_ms := some 7, page_size_bytes := some 4 } } ∈
      (processUrl "http://a/f.pdf" 1 cCtx cFrPdf "t" cStPdf).1.pages ∧
    (processUrl "http://a/f.pdf" 1 cCtx cFrPdf "t" cStPdf).2 = none := by
  have h := processUrl_nonhtml "http://a/f.pdf" 1 cCtx cFrPdf "t" cStPdf
    rfl rfl (by decide) (Or.inl (by decide))
  refine ⟨?_, h.2.2.2.2.2⟩
  have hm := h.1 cRowPdf (List.mem_singleton.mpr rfl) rfl rfl
  simpa [cFrPdf, jsStatus, contentTypeOf, jsOrNullStr, pageSizeBytesOf]
    using hm

/-! ### C4 — session resumption -/

theorem setAddAll_mem (urls : List String) (s : List String) (u : String) :
    u ∈ setAddAll urls s ↔ u ∈ s ∨ u ∈ urls := by
  induction urls generalizing s with
  | nil => simp [setAddAll]
  | cons a t ih =>
    simp only [setAddAll, List.foldl_cons] at ih ⊢
    by_cases h : a ∈ s
    · rw [if_pos h, ih]
      simp only [List.mem_cons]
      constructor
      · rintro (hu | hu)
        · exact Or.inl hu
        · exact Or.inr (Or.inr hu)
      · rintro (hu | rfl | hu)
        · exact Or.inl hu
        · exact Or.inl h
        · exact Or.inr hu
    · rw [if_neg h, ih]
      simp only [List.mem_cons]
      tauto

theorem pickLatest_mem (l : List SessionRow) (acc : Option SessionRow)
    (res : SessionRow)
    (h : l.foldl (fun acc s =>
      match acc with
      | none => some s
      | some b => if s.id > b.id then some s else acc) acc = some res) :
    res ∈ l ∨ acc = some res := by
  induction l generalizing acc with
  | nil => exact Or.inr h
  | cons a t ih =>
    simp only [List.foldl_cons] at h
    rcases ih _ h with hmem | hacc
    · exact Or.inl (List.mem_cons_of_mem _ hmem)
    · cases acc with
      | none =>
        simp only [Option.some.injEq] at hacc
        exact Or.inl (hacc ▸ List.mem_cons_self _ _)
      | some b =>
        simp only [] at hacc
        split at hacc
        · simp only [Option.some.injEq] at hacc
          exact Or.inl (hacc ▸ List.mem_cons_self _ _)
        · exact Or.inr hacc

theorem getLatestInterrupted_mem (st : Store) (sess : SessionRow)
    (h : getLatestInterruptedSession st = some sess) :
    sess ∈ st.sessions ∧ sess.status = "interrupted" := by
  unfold getLatestInterruptedSession at h
  rcases pickLatest_mem _ none sess h with hmem | hacc
  · rw [List.mem_filter] at hmem
    exact ⟨hmem.1, by simpa using hmem.2⟩
  · exact absurd hacc (by simp)

/-- **C4.** When a most-recent interrupted session exists, `resumeSession`
returns it with: a `seen` set equal to the union of all persisted page URLs of
that session (any status) and all distinct persisted link target URLs of that
session; a queue that is exactly that session's pending pages ordered by
ascending depth; and a store in which that session's status is set to
`running` while all other sessions and every other table are untouched. -/
theorem resumeSession_spec (st : Store) (now : String) (sess : SessionRow)
    (h : getLatestInterruptedSession st = some sess) :
    ∃ r, resumeSession st now = some r ∧
      r.sessionId = sess.id ∧
      (∀ u, u ∈ r.seen ↔
        (∃ p ∈ st.pages, p.session_id = sess.id ∧ p.url = u) ∨
        (∃ l ∈ st.links, l.session_id = sess.id ∧ l.target_url = u)) ∧
      r.queue.Perm ((st.pages.filter (fun p =>
        p.session_id == sess.id && p.status == "pending")).map
        (fun p => Item.mk p.url p.depth)) ∧
      r.queue.Pairwise (fun a b => a.depth ≤ b.depth) ∧
      { sess with status := "running" } ∈ r.store.sessions ∧
      (∀ s ∈ st.sessions, s.id ≠ sess.id → s ∈ r.store.sessions) ∧
      r.store.pages = st.pages ∧ r.store.links = st.links ∧
      r.store.images = st.images := by
  have hc : (("running" : String) == "complete" ||
      ("running" : String) == "interrupted") = false := by decide
  have hres : resumeSession st now = some
      { sessionId := sess.id,
        seen := setAddAll (getLinkTargetUrls st sess.id)
          (setAddAll (getAllPageUrls st sess.id) []),
        queue := getPendingUrls st sess.id,
        store := updateSessionStatus st sess.id "running" now } := by
    unfold resumeSession
    rw [h]
  refine ⟨_, hres, rfl, ?_, ?_, ?_, ?_, ?_, ?_, ?_, ?_⟩
  · intro u
    show u ∈ setAddAll (getLinkTargetUrls st sess.id)
      (setAddAll (getAllPageUrls st sess.id) []) ↔ _
    rw [setAddAll_mem, setAddAll_mem]
    simp only [List.not_mem_nil, false_or]
    unfold getAllPageUrls getLinkTargetUrls
    simp only [List.mem_dedup, List.mem_map, List.mem_filter, beq_iff_eq]
    constructor
    · rintro (⟨p, ⟨hp, hsid⟩, rfl⟩ | ⟨l, ⟨hl, hsid⟩, rfl⟩)
      · exact Or.inl ⟨p, hp, hsid, rfl⟩
      · exact Or.inr ⟨l, hl, hsid, rfl⟩
    · rintro (⟨p, hp, hsid, rfl⟩ | ⟨l, hl, hsid, rfl⟩)
      · exact Or.inl ⟨p, ⟨hp, hsid⟩, rfl⟩
      · exact Or.inr ⟨l, ⟨hl, hsid⟩, rfl⟩
  · exact List.mergeSort_perm _ _
  · have hp := @List.sorted_mergeSort Item
      (fun a b => decide (a.depth ≤ b.depth))
      (fun a b c hab hbc =>
        decide_eq_true (Nat.le_trans (of_decide_eq_true hab)
          (of_decide_eq_true hbc)))
      (fun a b => by
        rcases Nat.le_total a.depth b.depth with hle | hle
        · exact Bool.or_eq_true_iff.mpr (Or.inl (decide_eq_true hle))
        · exact Bool.or_eq_true_iff.mpr (Or.inr (decide_eq_true hle)))
      ((st.pages.filter (fun p =>
        p.session_id == sess.id && p.status == "pending")).map
        (fun p => Item.mk p.url p.depth))
    exact hp.imp (fun hab => of_decide_eq_true hab)
  · have hmem := (getLatestInterrupted_mem st sess h).1
    show _ ∈ (updateSessionStatus st sess.id "running" now).sessions
    unfold updateSessionStatus
    rw [hc]
    simp only [Bool.false_eq_true, if_false]
    exact List.mem_map.mpr ⟨sess, hmem, by simp⟩
  · intro s hs hne
    show s ∈ (updateSessionStatus st sess.id "running" now).sessions
    unfold updateSessionStatus
    rw [hc]
    simp only [Bool.false_eq_true, if_false]
    exact List.mem_map.mpr ⟨s, hs, by simp [hne]⟩
  · show (updateSessionStatus st sess.id "running" now).pages = st.pages
    unfold updateSessionStatus
    rw [hc]
    simp
  · show (updateSessionStatus st sess.id "running" now).links = st.links
    unfold updateSessionStatus
    rw [hc]
    simp
  · show (updateSessionStatus st sess.id "running" now).images = st.images
    unfold updateSessionStatus
    rw [hc]
    simp

/-- Witness for C4: resuming the concrete store with one interrupted session
recovers session 1 and its single pending page. -/
theorem resumeSession_spec_witness :
    (resumeSession cStRes "t").map (fun r => r.sessionId) = some 1 ∧
    (resumeSession cStRes "t").map (fun r => r.queue) =
      some [Item.mk "http://a/p" 2] := by
  obtain ⟨r, hr, hsid, hseen, hperm, hsort, hrest⟩ :=
    resumeSession_spec cStRes "t" cSessIntr rfl
  constructor
  · rw [hr]
    simp [hsid, cSessIntr]
  · rw [hr]
    have htgt : ((cStRes.pages.filter (fun p =>
        p.session_id == cSessIntr.id && p.status == "pending")).map
        (fun p => Item.mk p.url p.depth)) = [Item.mk "http://a/p" 2] := by
      decide
    have hq : r.queue = [Item.mk "http://a/p" 2] :=
      List.perm_singleton.mp (htgt ▸ hperm)
    simp [hq]

end SeoAuditor
